import Mathlib

/-!
Verification of the food-inventory backend (Express + MongoDB).

The development shallowly embeds the route handlers of `server.js` and of its
second lineage (the file with the `expiryDate` field, the PATCH route, the
`ObjectId.isValid` guard on single delete, and the delete-all route).  The
MongoDB collection becomes an explicit `Store` (a list of records plus a
fresh-id counter); each handler becomes a pure function from the store and the
request data to an HTTP status, a response payload and the new store.
-/

namespace FoodInv

/-- A JSON/BSON value as far as the `quantity` field is concerned: the schema
is free-form, so `quantity` holds a string after creation, a number after a
PUT update, or null when the PUT body carried no quantity (the driver
serializes an undefined `$set` value as null). -/
inductive JVal where
  | jstr (s : String)
  | jnum (n : Int)
  | jnull
deriving DecidableEq, Repr

/-- One persisted document of the `foods` collection.  `id` stands for the
Mongo `_id` key (modelled as the decoded numeric value of the ObjectId);
optional fields are `none` when absent. -/
structure Item where
  id : Nat
  name : String
  brands : String
  quantity : JVal
  ingredients : Option String
  categories : Option String
  imageUrl : Option String
  url : Option String
  expiryDate : Option String
deriving DecidableEq, Repr

/-- The collection handle: the stored documents in scan order plus the counter
from which the next store-generated id is drawn. -/
structure Store where
  nextId : Nat
  items : List Item
deriving DecidableEq, Repr

/-- One row of the aggregated inventory view: the JS code builds
`{ ...item, count }`, i.e. all fields of one representative record plus a
count. -/
structure ViewEntry where
  item : Item
  count : Nat
deriving DecidableEq, Repr

/-- The `missingFields` map of the 400 response of POST /api/food/add.  The
code fills it with `!!trimmedName` etc., so each flag is the truthiness of the
trimmed field. -/
structure MissingFields where
  name : Bool
  brands : Bool
  quantity : Bool
deriving DecidableEq, Repr

/-- The JSON body of POST /api/food/add; `none` models an absent field. -/
structure AddBody where
  name : Option String
  ingredients : Option String
  brands : Option String
  quantity : Option String
  categories : Option String
  imageUrl : Option String
  url : Option String
  expiryDate : Option String
deriving DecidableEq, Repr

/-- Result of the add handler: 400 with the `missingFields` map (store
untouched), or 201 carrying the item re-read from the store after the insert,
together with the new store. -/
inductive AddResult where
  | badRequest (mf : MissingFields)
  | created (item : Option Item) (st : Store)
deriving DecidableEq, Repr

/-- Status, response message and resulting store of the PUT quantity
handler. -/
structure PutResponse where
  status : Nat
  message : String
  store : Store
deriving DecidableEq, Repr

/-! ### JavaScript-semantics helpers -/

/-- JS `String.prototype.trim`: drop leading and trailing whitespace.  Written
on the character list so that it reduces in the kernel. -/
def jsTrimChars (l : List Char) : List Char :=
  ((l.dropWhile Char.isWhitespace).reverse.dropWhile Char.isWhitespace).reverse

/-- JS trim lifted to `String`. -/
def jsTrim (s : String) : String := ⟨jsTrimChars s.data⟩

/-- The JS expression `field ? field.trim() : ''` on a possibly absent string: an absent
or empty (falsy) field yields `''`, otherwise the trimmed string. -/
def trimField : Option String → String
  | none => ""
  | some s => if s == "" then "" else jsTrim s

/-- JS `quantity < 0` where `quantity` may be undefined: any comparison with
undefined is false. -/
def jsLtZero : Option Int → Bool
  | none => false
  | some n => decide (n < 0)

/-- JS `quantity === 0` where `quantity` may be undefined. -/
def jsEqZero : Option Int → Bool
  | none => false
  | some n => decide (n = 0)

/-- JS falsiness of a possibly absent string (`!expiryDate`): absent and empty
strings are falsy. -/
def jsFalsyStr : Option String → Bool
  | none => true
  | some s => s == ""

/-- The BSON value the driver stores for `$set: { quantity }`: a number stays
a number, an undefined value is serialized as null. -/
def qVal : Option Int → JVal
  | none => JVal.jnull
  | some n => JVal.jnum n

/-! ### ObjectId syntax -/

/-- Hexadecimal digit test for ObjectId strings. -/
def isHexChar (c : Char) : Bool :=
  c.isDigit || ('a' ≤ c && c ≤ 'f') || ('A' ≤ c && c ≤ 'F')

/-- Numeric value of a hex digit. -/
def hexVal (c : Char) : Nat :=
  if c.isDigit then c.toNat - 48
  else if 'a' ≤ c && c ≤ 'f' then c.toNat - 87
  else c.toNat - 55

/-- The check `ObjectId.isValid(id)` for a string argument: a 24-character hex string or
any 12-character string (taken as 12 raw bytes). -/
def isValidObjectId (s : String) : Bool :=
  (s.length == 24 && s.data.all isHexChar) || s.length == 12

/-- The constructor `new ObjectId(id)`: `some` of the decoded key when the string is a valid
ObjectId, `none` when the constructor throws. -/
def parseObjectId (s : String) : Option Nat :=
  if s.length == 24 && s.data.all isHexChar then
    some (s.data.foldl (fun a c => a * 16 + hexVal c) 0)
  else if s.length == 12 then
    some (s.data.foldl (fun a c => a * 256 + c.toNat) 0)
  else
    none

/-! ### List primitives mirroring single-document Mongo operations -/

/-- Mongo `updateOne`: apply `f` to the first element satisfying `p`, leave the rest
of the list untouched. -/
def updateFirst (p : Item → Bool) (f : Item → Item) : List Item → List Item
  | [] => []
  | x :: xs => if p x then f x :: xs else x :: updateFirst p f xs

/-- Mongo `deleteOne` and `findOneAndDelete`: remove the first element satisfying
`p`. -/
def removeFirst (p : Item → Bool) : List Item → List Item
  | [] => []
  | x :: xs => if p x then xs else x :: removeFirst p xs

/-! ### Route handlers -/

/-- POST /api/food/add: trim `name`, `brands`, `quantity`; reject with the
`missingFields` map (each flag is `!!trimmedField`, the truthiness of the
trimmed value) when any trimmed required field is empty; otherwise insert the
document and answer 201 with the item found again by the inserted id. -/
def addFood (st : Store) (b : AddBody) : AddResult :=
  let tn := trimField b.name
  let tb := trimField b.brands
  let tq := trimField b.quantity
  if tn == "" || tb == "" || tq == "" then
    .badRequest ⟨tn != "", tb != "", tq != ""⟩
  else
    let newItem : Item :=
      ⟨st.nextId, tn, tb, JVal.jstr tq, b.ingredients, b.categories,
        b.imageUrl, b.url, b.expiryDate⟩
    let st' : Store := ⟨st.nextId + 1, st.items ++ [newItem]⟩
    .created (st'.items.find? (fun it => it.id == st.nextId)) st'

/-- The grouping key of the inventory aggregation:
`` `${item.name}-${item.brands}` ``. -/
def itemKey (it : Item) : String := it.name ++ "-" ++ it.brands

/-- Key of a view entry (the key of its representative record). -/
def entryKey (e : ViewEntry) : String := itemKey e.item

/-- One step of the `reduce` of GET /api/food/inventory: an already seen key
increments the count of its entry, an unseen key appends a fresh entry with
count 1 carrying the record's fields. -/
def aggStep (acc : List ViewEntry) (it : Item) : List ViewEntry :=
  if acc.any (fun e => entryKey e == itemKey it) then
    acc.map (fun e => if entryKey e == itemKey it then ⟨e.item, e.count + 1⟩ else e)
  else
    acc ++ [⟨it, 1⟩]

/-- GET /api/food/inventory: fold the scan of the collection through
`aggStep` (the JS object preserves insertion order of its string keys, so the
accumulator is a list in first-occurrence order). -/
def aggregate (inv : List Item) : List ViewEntry :=
  inv.foldl aggStep []

/-- GET /api/food/:id: `new ObjectId(id)` throws on a malformed id and the
catch answers 500; otherwise `findOne`, answering 404 when no document
matches and 200 with the document otherwise. -/
def getFood (st : Store) (id : String) : Nat × Option Item :=
  match parseObjectId id with
  | none => (500, none)
  | some k =>
    match st.items.find? (fun it => it.id == k) with
    | none => (404, none)
    | some it => (200, some it)

/-- DELETE /api/food/delete/:id (the lineage with the guard): 400 when
`ObjectId.isValid` fails, then `findOneAndDelete`, 404 when nothing matched,
200 otherwise. -/
def deleteById (st : Store) (id : String) : Nat × Store :=
  if !isValidObjectId id then (400, st)
  else
    match parseObjectId id with
    | none => (500, st)
    | some k =>
      match st.items.find? (fun it => it.id == k) with
      | none => (404, st)
      | some _ => (200, {st with items := removeFirst (fun it => it.id == k) st.items})

/-- DELETE /api/food/delete/all handler body: `deleteMany({})`; 404 when the
deleted count is zero, 200 otherwise. -/
def deleteAll (st : Store) : Nat × Store :=
  if st.items.isEmpty then (404, st) else (200, {st with items := []})

/-- Whether a route pattern segment is a `:param` capture (starts with a
colon).  Written on the character list so that it reduces in the kernel. -/
def isParamSeg (s : String) : Bool :=
  match s.data with
  | [] => false
  | c :: _ => c == ':'

/-- One Express path segment against a pattern segment: a `:param` segment
matches anything, a literal segment matches itself. -/
def segMatches (pat seg : String) : Bool := isParamSeg pat || pat == seg

/-- Express route matching of a whole path against a pattern. -/
def routeMatches : List String → List String → Bool
  | [], [] => true
  | p :: ps, s :: ss => segMatches p s && routeMatches ps ss
  | _, _ => false

/-- Express dispatch of a DELETE request: routes are tried in registration
order, and the source registers `/api/food/delete/:id` before
`/api/food/delete/all`, so the `:id` pattern captures the literal path
`all`. -/
def deleteDispatch (st : Store) (path : List String) : Nat × Store :=
  if routeMatches ["api", "food", "delete", ":id"] path then
    deleteById st (path.getD 3 "")
  else if routeMatches ["api", "food", "delete", "all"] path then
    deleteAll st
  else (404, st)

/-- PUT /api/food/update/:id: reject a negative quantity with 400; with
quantity 0 delete the document (404 when the deleted count is zero); otherwise
`$set` the quantity on the matched document (404 when nothing matched).  The
two comparisons are JS `<` and `===` on a possibly undefined body value. -/
def updateQuantity (st : Store) (id : String) (q : Option Int) : PutResponse :=
  if jsLtZero q then ⟨400, "Quantity cannot be negative", st⟩
  else if jsEqZero q then
    match parseObjectId id with
    | none => ⟨500, "Failed to update product quantity", st⟩
    | some k =>
      if st.items.any (fun it => it.id == k) then
        ⟨200, "Product deleted due to quantity being 0",
          {st with items := removeFirst (fun it => it.id == k) st.items}⟩
      else ⟨404, "Product not found to delete", st⟩
  else
    match parseObjectId id with
    | none => ⟨500, "Failed to update product quantity", st⟩
    | some k =>
      if st.items.any (fun it => it.id == k) then
        let items' := updateFirst (fun it => it.id == k)
          (fun it => {it with quantity := qVal q}) st.items
        ⟨200, "Product quantity updated", {st with items := items'}⟩
      else ⟨404, "Product not found", st⟩

/-- PATCH /api/food/update/:id: 400 on a falsy `expiryDate`; otherwise
`updateOne` with `$set: { expiryDate }`, answering 404 when `modifiedCount`
is zero (no match, or the matched document already carried that date) and 200
otherwise. -/
def updateExpiry (st : Store) (id : String) (expiryDate : Option String) : Nat × Store :=
  if jsFalsyStr expiryDate then (400, st)
  else
    match parseObjectId id with
    | none => (500, st)
    | some k =>
      match st.items.find? (fun it => it.id == k) with
      | none => (404, st)
      | some it =>
        if it.expiryDate == expiryDate then (404, st)
        else
          let items' := updateFirst (fun j => j.id == k)
            (fun j => {j with expiryDate := expiryDate}) st.items
          (200, {st with items := items'})

/-! ### The aggregation invariant -/

/-- Number of records of `inv` whose grouping key is `k`. -/
def groupCount (k : String) (inv : List Item) : Nat :=
  (inv.filter (fun it => itemKey it == k)).length

/-- Invariant tying the reduce accumulator to the prefix of the scan already
processed: for every key the accumulator holds exactly one entry when the
prefix contains a record with that key — carrying the fields of the first such
record and the number of its occurrences — and no entry otherwise. -/
def WF (seen : List Item) (acc : List ViewEntry) : Prop :=
  ∀ k : String,
    acc.filter (fun e => entryKey e == k) =
      ((seen.find? (fun x => itemKey x == k)).map
        (fun x => ViewEntry.mk x (groupCount k seen))).toList

lemma groupCount_append_match (k : String) (it : Item) (seen : List Item)
    (h : (itemKey it == k) = true) :
    groupCount k (seen ++ [it]) = groupCount k seen + 1 := by
  simp [groupCount, List.filter_append, List.filter_cons, h]

lemma groupCount_append_nomatch (k : String) (it : Item) (seen : List Item)
    (h : (itemKey it == k) = false) :
    groupCount k (seen ++ [it]) = groupCount k seen := by
  simp [groupCount, List.filter_append, List.filter_cons, h]

lemma filter_map_keyInv (p : ViewEntry → Bool) (f : ViewEntry → ViewEntry)
    (hf : ∀ e, p (f e) = p e) (l : List ViewEntry) :
    (l.map f).filter p = (l.filter p).map f := by
  induction l with
  | nil => rfl
  | cons a t ih =>
    cases hpa : p a
    · simp [List.filter_cons, hf a, hpa, ih]
    · simp [List.filter_cons, hf a, hpa, ih]

lemma aggStep_WF {seen : List Item} {acc : List ViewEntry} (it : Item)
    (h : WF seen acc) : WF (seen ++ [it]) (aggStep acc it) := by
  have hkeyf : ∀ (k : String) (e : ViewEntry),
      ((entryKey (if entryKey e == itemKey it then ViewEntry.mk e.item (e.count + 1) else e)) == k)
        = (entryKey e == k) := by
    intro k e
    cases hc : entryKey e == itemKey it <;> simp [hc, entryKey]
  intro k
  rw [aggStep]
  by_cases hany : acc.any (fun e => entryKey e == itemKey it) = true
  · rw [if_pos hany]
    rw [filter_map_keyInv _ _ (hkeyf k) acc]
    obtain ⟨e0, he0mem, he0key⟩ := List.any_eq_true.mp hany
    have hne : acc.filter (fun e => entryKey e == itemKey it) ≠ [] := by
      intro hnil
      have hmem : e0 ∈ acc.filter (fun e => entryKey e == itemKey it) :=
        List.mem_filter.mpr ⟨he0mem, he0key⟩
      rw [hnil] at hmem
      exact absurd hmem (List.not_mem_nil e0)
    have hit := h (itemKey it)
    rcases hcase : seen.find? (fun x => itemKey x == itemKey it) with _ | it0
    · rw [hcase] at hit
      simp only [Option.map_none', Option.toList_none] at hit
      exact absurd hit hne
    · rw [hcase] at hit
      simp only [Option.map_some', Option.toList_some] at hit
      have hit0key : (itemKey it0 == itemKey it) = true := by
        simpa using List.find?_some hcase
      by_cases hk : (itemKey it == k) = true
      · have hkeq : itemKey it = k := beq_iff_eq.mp hk
        subst hkeq
        rw [hit]
        have hfa : ((seen ++ [it]).find? (fun x => itemKey x == itemKey it)) = some it0 := by
          rw [List.find?_append, hcase]; rfl
        rw [hfa]
        simp only [Option.map_some', Option.toList_some, List.map_cons, List.map_nil]
        rw [groupCount_append_match (itemKey it) it seen (by simp)]
        simp [entryKey, hit0key]
      · have hk' : (itemKey it == k) = false := by simpa using hk
        have hid : (acc.filter (fun e => entryKey e == k)).map
            (fun e => if entryKey e == itemKey it then ViewEntry.mk e.item (e.count + 1) else e)
              = acc.filter (fun e => entryKey e == k) := by
          have hcongr : ∀ e ∈ acc.filter (fun e => entryKey e == k),
              (if entryKey e == itemKey it then ViewEntry.mk e.item (e.count + 1) else e) = e := by
            intro e he
            have hek : (entryKey e == k) = true := (List.mem_filter.mp he).2
            have hcond : (entryKey e == itemKey it) = false := by
              cases hcond : entryKey e == itemKey it
              · rfl
              · exfalso
                have h1 : entryKey e = k := beq_iff_eq.mp hek
                have h2 : entryKey e = itemKey it := beq_iff_eq.mp hcond
                rw [h1] at h2
                exact hk (beq_iff_eq.mpr h2.symm)
            rw [hcond]
            rfl
          calc (acc.filter (fun e => entryKey e == k)).map
                (fun e => if entryKey e == itemKey it then ViewEntry.mk e.item (e.count + 1) else e)
              = (acc.filter (fun e => entryKey e == k)).map id := List.map_congr_left hcongr
            _ = acc.filter (fun e => entryKey e == k) := List.map_id _
        rw [hid, h k]
        have hfone : List.find? (fun x => itemKey x == k) [it] = none := by
          simp [List.find?, hk']
        simp only [List.find?_append, hfone, Option.or_none,
          groupCount_append_nomatch k it seen hk']
  · rw [if_neg hany]
    have hany' : acc.any (fun e => entryKey e == itemKey it) = false := by
      simpa using hany
    have hfilnil : acc.filter (fun e => entryKey e == itemKey it) = [] :=
      List.filter_eq_nil_iff.mpr (List.any_eq_false.mp hany')
    have hfind : seen.find? (fun x => itemKey x == itemKey it) = none := by
      rcases hcase : seen.find? (fun x => itemKey x == itemKey it) with _ | it0
      · rfl
      · exfalso
        have hcontra := h (itemKey it)
        rw [hcase, hfilnil] at hcontra
        simp at hcontra
    have hgc : groupCount (itemKey it) seen = 0 := by
      have hall := List.find?_eq_none.mp hfind
      have : seen.filter (fun x => itemKey x == itemKey it) = [] :=
        List.filter_eq_nil_iff.mpr hall
      simp [groupCount, this]
    rw [List.filter_append]
    by_cases hk : (itemKey it == k) = true
    · have hkeq : itemKey it = k := beq_iff_eq.mp hk
      subst hkeq
      have hfa : ((seen ++ [it]).find? (fun x => itemKey x == itemKey it)) = some it := by
        rw [List.find?_append, hfind, Option.none_or]
        simp [List.find?]
      rw [hfa, hfilnil]
      simp only [Option.map_some', Option.toList_some, List.nil_append]
      rw [groupCount_append_match (itemKey it) it seen (by simp), hgc]
      simp [List.filter_cons, entryKey]
    · have hk' : (itemKey it == k) = false := by simpa using hk
      have hfone : List.find? (fun x => itemKey x == k) [it] = none := by
        simp [List.find?, hk']
      have hsingle : List.filter (fun e => entryKey e == k) [ViewEntry.mk it 1] = [] := by
        simp [List.filter_cons, entryKey, hk']
      rw [hsingle, List.append_nil, h k]
      simp only [List.find?_append, hfone, Option.or_none,
        groupCount_append_nomatch k it seen hk']

lemma foldl_WF (inv : List Item) :
    ∀ (seen : List Item) (acc : List ViewEntry), WF seen acc →
      WF (seen ++ inv) (List.foldl aggStep acc inv) := by
  induction inv with
  | nil => intro seen acc h; simpa using h
  | cons a t ih =>
    intro seen acc h
    have hstep := aggStep_WF a h
    have := ih (seen ++ [a]) (aggStep acc a) hstep
    simpa [List.append_assoc] using this

lemma WF_nil : WF [] [] := by
  intro k
  simp [List.find?]

/-- The aggregated view satisfies the accumulator invariant over the whole
scan. -/
lemma aggregate_WF (inv : List Item) : WF inv (aggregate inv) := by
  have := foldl_WF inv [] [] WF_nil
  simpa [aggregate] using this

/-- The filtered view of the aggregation, rewritten through the invariant. -/
lemma aggregate_filter_eq (inv : List Item) (k : String) :
    (aggregate inv).filter (fun e => entryKey e == k) =
      ((inv.find? (fun x => itemKey x == k)).map
        (fun x => ViewEntry.mk x (groupCount k inv))).toList :=
  aggregate_WF inv k

/-- Two strings equal letter-by-letter up to ASCII case. -/
def sameUpToCase (s t : String) : Prop :=
  s.data.map Char.toLower = t.data.map Char.toLower

lemma sameUpToCase_length {s t : String} (h : sameUpToCase s t) :
    s.data.length = t.data.length := by
  have := congrArg List.length h
  simpa using this

/-- Two records whose names have equal length but whose (name, brands) pairs
differ have different grouping keys. -/
lemma itemKey_inj_of_name_length {it1 it2 : Item}
    (hlen : it1.name.data.length = it2.name.data.length)
    (hne : (it1.name, it1.brands) ≠ (it2.name, it2.brands)) :
    itemKey it1 ≠ itemKey it2 := by
  intro hkey
  apply hne
  have hd := congrArg String.data hkey
  simp only [itemKey, String.data_append] at hd
  have hlen1 : (it1.name.data ++ "-".data).length = (it2.name.data ++ "-".data).length := by
    simp only [List.length_append]
    omega
  obtain ⟨hfront, hbrands⟩ := List.append_inj hd hlen1
  have hnames : it1.name.data = it2.name.data :=
    (List.append_inj hfront hlen).1
  rw [String.ext hnames, String.ext hbrands]

/-- Claim C1 (amended): for every list of stored records, the aggregated view
contains exactly one view-entry per distinct concatenated grouping key
`name ++ "-" ++ brands` occurring in the list, and that entry's count equals
the number of records whose concatenated key equals it; moreover two records
differing only in letter case have different keys and hence belong to
distinct groups.  (The claim as frozen, which counts one entry per distinct
(name, brands) pair, fails when two distinct pairs concatenate to the same
key.) -/
theorem aggregate_one_entry_per_key (inv : List Item) (k : String)
    (h : ∃ it ∈ inv, itemKey it = k) :
    (∃ e : ViewEntry,
        (aggregate inv).filter (fun v => entryKey v == k) = [e] ∧
        e.count = groupCount k inv) ∧
    (∀ it1 it2 : Item, sameUpToCase it1.name it2.name →
        sameUpToCase it1.brands it2.brands →
        (it1.name, it1.brands) ≠ (it2.name, it2.brands) →
        itemKey it1 ≠ itemKey it2) := by
  constructor
  · obtain ⟨it, hmem, hkey⟩ := h
    have hsome : (inv.find? (fun x => itemKey x == k)).isSome :=
      List.find?_isSome.mpr ⟨it, hmem, by simpa using hkey⟩
    obtain ⟨it0, hfind⟩ := Option.isSome_iff_exists.mp hsome
    refine ⟨ViewEntry.mk it0 (groupCount k inv), ?_, rfl⟩
    rw [aggregate_filter_eq, hfind]
    rfl
  · intro it1 it2 hn hb hne
    exact itemKey_inj_of_name_length (sameUpToCase_length hn) hne

/-- Records with distinct (name, brands) pairs that concatenate to the same
grouping key. -/
def collideA : Item :=
  ⟨1, "a-b", "c", JVal.jstr "1", none, none, none, none, none⟩

/-- Second colliding record: its pair ("a", "b-c") differs from collideA's
pair ("a-b", "c") but yields the same key "a-b-c". -/
def collideB : Item :=
  ⟨2, "a", "b-c", JVal.jstr "1", none, none, none, none, none⟩

/-- Claim C1 counterexample: the pair ("a", "b-c") occurs in the stored list,
yet the aggregated view holds no entry whose name and brands equal that pair
— the record was merged into the entry of the colliding pair ("a-b", "c"),
so the view does not contain one entry per distinct (name, brands) pair. -/
theorem aggregate_missing_pair_entry :
    (∃ it ∈ [collideA, collideB], it.name = "a" ∧ it.brands = "b-c") ∧
    ¬ (∃ e ∈ aggregate [collideA, collideB],
        e.item.name = "a" ∧ e.item.brands = "b-c") := by
  decide

/-- First record of a duplicated (name, brands) group. -/
def dupFirst : Item :=
  ⟨1, "Milk", "Acme", JVal.jstr "1L", none, none, none, none, none⟩

/-- Second record of the same group, with a different quantity. -/
def dupSecond : Item :=
  ⟨2, "Milk", "Acme", JVal.jstr "2L", none, none, none, none, none⟩

/-- Claim C1 witness: on a store holding the two Milk/Acme records, the view
holds exactly one entry for the key "Milk-Acme" and its count is 2. -/
theorem aggregate_one_entry_per_key_witness :
    (∃ e : ViewEntry,
        (aggregate [dupFirst, dupSecond]).filter (fun v => entryKey v == "Milk-Acme") = [e] ∧
        e.count = groupCount "Milk-Acme" [dupFirst, dupSecond]) ∧
    (∀ it1 it2 : Item, sameUpToCase it1.name it2.name →
        sameUpToCase it1.brands it2.brands →
        (it1.name, it1.brands) ≠ (it2.name, it2.brands) →
        itemKey it1 ≠ itemKey it2) :=
  aggregate_one_entry_per_key [dupFirst, dupSecond] "Milk-Acme"
    ⟨dupFirst, by decide, by decide⟩

/-- Claim C2 counterexample: with two records sharing the key "Milk-Acme" in
scan order, the single view-entry carries the quantity of the first record
("1L"), not the quantity of the last record ("2L") as the claim states. -/
theorem aggregate_entry_not_last_record :
    ¬ (∀ e ∈ aggregate [dupFirst, dupSecond],
        e.item.quantity = dupSecond.quantity) := by
  decide

/-- Claim C2 (amended): for every list of stored records and every grouping
key occurring in it, the view-entry for that key carries count ≥ 1 and all
non-count fields equal to the fields of the first record with that key
encountered in scan order (the reduce stores the fields on first occurrence
and later occurrences only increment the count). -/
theorem aggregate_entry_first_record (inv : List Item) (k : String)
    (h : ∃ it ∈ inv, itemKey it = k) :
    ∃ e : ViewEntry,
      (aggregate inv).filter (fun v => entryKey v == k) = [e] ∧
      1 ≤ e.count ∧
      inv.find? (fun it => itemKey it == k) = some e.item := by
  obtain ⟨it, hmem, hkey⟩ := h
  have hsome : (inv.find? (fun x => itemKey x == k)).isSome :=
    List.find?_isSome.mpr ⟨it, hmem, by simpa using hkey⟩
  obtain ⟨it0, hfind⟩ := Option.isSome_iff_exists.mp hsome
  refine ⟨ViewEntry.mk it0 (groupCount k inv), ?_, ?_, by simpa using hfind⟩
  · rw [aggregate_filter_eq, hfind]
    rfl
  · have hmemf : it ∈ inv.filter (fun x => itemKey x == k) :=
      List.mem_filter.mpr ⟨hmem, by simpa using hkey⟩
    have hne : inv.filter (fun x => itemKey x == k) ≠ [] := by
      intro hnil
      rw [hnil] at hmemf
      exact absurd hmemf (List.not_mem_nil it)
    have hpos : 0 < (inv.filter (fun x => itemKey x == k)).length :=
      List.length_pos.mpr hne
    simpa [groupCount] using hpos

/-- Claim C2 witness: on the two Milk/Acme records the single view-entry has
count ≥ 1 and carries the fields of the first record of the group. -/
theorem aggregate_entry_first_record_witness :
    ∃ e : ViewEntry,
      (aggregate [dupFirst, dupSecond]).filter (fun v => entryKey v == "Milk-Acme") = [e] ∧
      1 ≤ e.count ∧
      [dupFirst, dupSecond].find? (fun it => itemKey it == "Milk-Acme") = some e.item :=
  aggregate_entry_first_record [dupFirst, dupSecond] "Milk-Acme"
    ⟨dupFirst, by decide, by decide⟩

/-! ### Single-document operation lemmas -/

lemma find?_decomp {p : Item → Bool} {l : List Item} {x : Item}
    (h : l.find? p = some x) :
    ∃ l1 l2, l = l1 ++ x :: l2 ∧ ∀ y ∈ l1, p y = false := by
  induction l with
  | nil => simp [List.find?] at h
  | cons a t ih =>
    cases hpa : p a
    · rw [List.find?_cons_of_neg _ (by simp [hpa])] at h
      obtain ⟨l1, l2, hsplit, hall⟩ := ih h
      refine ⟨a :: l1, l2, by rw [hsplit]; rfl, ?_⟩
      intro y hy
      rcases List.mem_cons.mp hy with hya | hyl1
      · rw [hya]; exact hpa
      · exact hall y hyl1
    · rw [List.find?_cons_of_pos _ hpa] at h
      have hax : a = x := by simpa using h
      subst hax
      exact ⟨[], t, rfl, by intro y hy; exact absurd hy (List.not_mem_nil y)⟩

lemma updateFirst_decomp (f : Item → Item) {p : Item → Bool} {l1 l2 : List Item} {x : Item}
    (h1 : ∀ y ∈ l1, p y = false) (hx : p x = true) :
    updateFirst p f (l1 ++ x :: l2) = l1 ++ f x :: l2 := by
  induction l1 with
  | nil => simp [updateFirst, hx]
  | cons a t ih =>
    have hpa : p a = false := h1 a (List.mem_cons_self a t)
    have htail := ih (fun y hy => h1 y (List.mem_cons_of_mem a hy))
    simp [updateFirst, hpa, htail]

lemma removeFirst_decomp {p : Item → Bool} {l1 l2 : List Item} {x : Item}
    (h1 : ∀ y ∈ l1, p y = false) (hx : p x = true) :
    removeFirst p (l1 ++ x :: l2) = l1 ++ l2 := by
  induction l1 with
  | nil => simp [removeFirst, hx]
  | cons a t ih =>
    have hpa : p a = false := h1 a (List.mem_cons_self a t)
    have htail := ih (fun y hy => h1 y (List.mem_cons_of_mem a hy))
    simp [removeFirst, hpa, htail]

/-- With unique ids, nothing matches the deleted id once its unique document
is removed. -/
lemma no_match_after_remove {l1 l2 : List Item} {x : Item} {k : Nat}
    (hnd : ((l1 ++ x :: l2).map Item.id).Nodup)
    (h1 : ∀ y ∈ l1, (y.id == k) = false) (hx : (x.id == k) = true) :
    ∀ y ∈ l1 ++ l2, (y.id == k) = false := by
  intro y hy
  rcases List.mem_append.mp hy with hmem | hmem
  · exact h1 y hmem
  · have hxk : x.id = k := by simpa using hx
    have hmid : ((l1.map Item.id) ++ x.id :: (l2.map Item.id)).Nodup := by
      simpa using hnd
    have hnotin : x.id ∉ l2.map Item.id :=
      (List.nodup_cons.mp hmid.of_append_right).1
    cases hyk : y.id == k
    · rfl
    · exfalso
      have hyk' : y.id = k := by simpa using hyk
      apply hnotin
      rw [hxk, ← hyk']
      exact List.mem_map_of_mem Item.id hmem

/-! ### Claims about create, read and delete -/

/-- The store with no documents. -/
def emptyStore : Store := ⟨0, []⟩

/-- A store holding one record (dupFirst, id 1). -/
def oneItemStore : Store := ⟨2, [dupFirst]⟩

/-- Claim C3: the code does answer 400 when a required field trims to empty,
but the missingFields map is built from the truthiness of each trimmed field
(`!!trimmedName`), so each flag reports presence, not absence: with an empty
name and present brands and quantity the response carries
missingFields.name = false and missingFields.brands = missingFields.quantity
= true — the opposite of the claim for every field. -/
theorem addFood_missingFields_inverted :
    addFood emptyStore ⟨some "", none, some "Acme", some "1L", none, none, none, none⟩
      = .badRequest ⟨false, true, true⟩ := by
  decide

/-- Claim C4 counterexample: "xyz" is not a well-formed ObjectId and the GET
handler answers 500 for it, not 400 — the handler has no validity check, the
ObjectId constructor throws inside the try block and the catch answers
500. -/
theorem getFood_invalid_id_500 :
    isValidObjectId "xyz" = false ∧ (getFood oneItemStore "xyz").1 = 500 := by
  decide

/-- Claim C4 (amended): for every GET-single request whose id is not a
syntactically well-formed store key, the ObjectId construction throws before
any store lookup and the handler answers 500 with no body, whatever the store
holds; it never answers 400 or 404 for such an id. -/
theorem getFood_malformed_id (st : Store) (id : String)
    (h : parseObjectId id = none) :
    getFood st id = (500, none) := by
  simp [getFood, h]

/-- Claim C4 witness: the malformed id "xyz" yields the 500 response on a
nonempty store. -/
theorem getFood_malformed_id_witness :
    getFood emptyStore "xyz" = (500, none) :=
  getFood_malformed_id emptyStore "xyz" (by decide)

/-- Claim C5: DELETE /api/food/delete/all never reaches the delete-all
handler.  The route /api/food/delete/:id is registered first, its pattern
captures the literal path segment "all", and ObjectId.isValid("all") is
false, so the request answers 400 and removes nothing: on a store with one
record the response is 400 with the store unchanged — not the claimed 200
with zero records remaining — while the shadowed delete-all handler itself
would have answered 200 and emptied the store. -/
theorem deleteAll_route_shadowed :
    deleteDispatch oneItemStore ["api", "food", "delete", "all"] = (400, oneItemStore) ∧
    deleteAll oneItemStore = (200, ⟨2, []⟩) := by
  decide

/-! ### Claims about quantity and expiry updates -/

/-- Claim C7: a negative quantity is rejected with 400 before any store call:
the response carries the validation message and the store comes back
completely unchanged, whatever the id and the store contents. -/
theorem updateQuantity_negative_rejected (st : Store) (id : String) (q : Int)
    (h : q < 0) :
    updateQuantity st id (some q) = ⟨400, "Quantity cannot be negative", st⟩ := by
  have hlt : jsLtZero (some q) = true := by
    simp [jsLtZero, h]
  simp [updateQuantity, hlt]

/-- Claim C7 witness: quantity -5 on the one-record store. -/
theorem updateQuantity_negative_rejected_witness :
    updateQuantity oneItemStore "000000000000000000000001" (some (-5))
      = ⟨400, "Quantity cannot be negative", oneItemStore⟩ :=
  updateQuantity_negative_rejected oneItemStore "000000000000000000000001" (-5) (by decide)

/-- Claim C6: updating the quantity of an existing record to 0 deletes the
record rather than updating it: with unique ids the handler answers 200 with
the deletion message (not the update message), exactly the matched record
disappears from the store, and a subsequent GET on the same id answers
404. -/
theorem updateQuantity_zero_deletes (st : Store) (sid : String) (k : Nat) (it : Item)
    (hparse : parseObjectId sid = some k)
    (hfind : st.items.find? (fun j => j.id == k) = some it)
    (hnd : (st.items.map Item.id).Nodup) :
    ∃ l1 l2,
      st.items = l1 ++ it :: l2 ∧
      updateQuantity st sid (some 0) =
        ⟨200, "Product deleted due to quantity being 0", ⟨st.nextId, l1 ++ l2⟩⟩ ∧
      (getFood (updateQuantity st sid (some 0)).store sid).1 = 404 := by
  obtain ⟨l1, l2, hsplit, hall⟩ := find?_decomp hfind
  have hx : (it.id == k) = true := by simpa using List.find?_some hfind
  have hany : st.items.any (fun j => j.id == k) = true :=
    List.any_eq_true.mpr ⟨it, List.mem_of_find?_eq_some hfind, hx⟩
  have hlt : jsLtZero (some 0) = false := by decide
  have heq : jsEqZero (some 0) = true := by decide
  have hupdate : updateQuantity st sid (some 0) =
      ⟨200, "Product deleted due to quantity being 0", ⟨st.nextId, l1 ++ l2⟩⟩ := by
    simp only [updateQuantity, hlt, heq, hparse, hany]
    rw [hsplit, removeFirst_decomp hall hx]
    simp
  refine ⟨l1, l2, hsplit, hupdate, ?_⟩
  rw [hupdate]
  have hnone : (l1 ++ l2).find? (fun j => j.id == k) = none := by
    apply List.find?_eq_none.mpr
    intro x hmem
    have hfalse := no_match_after_remove (by rwa [hsplit] at hnd) hall hx x hmem
    simp [hfalse]
  simp [getFood, hparse, hnone]

/-- Claim C6 witness: deleting the one stored record via quantity 0, then
reading it back, yields 404. -/
theorem updateQuantity_zero_deletes_witness :
    ∃ l1 l2,
      oneItemStore.items = l1 ++ dupFirst :: l2 ∧
      updateQuantity oneItemStore "000000000000000000000001" (some 0) =
        ⟨200, "Product deleted due to quantity being 0", ⟨oneItemStore.nextId, l1 ++ l2⟩⟩ ∧
      (getFood (updateQuantity oneItemStore "000000000000000000000001" (some 0)).store
        "000000000000000000000001").1 = 404 :=
  updateQuantity_zero_deletes oneItemStore "000000000000000000000001" 1 dupFirst
    (by decide) (by decide) (by decide)

/-- Claim C10: a PUT quantity update on an existing record whose body carries
no quantity at all is not rejected: the JS comparisons `undefined < 0` and
`undefined === 0` are both false without any presence or type check, so the
handler runs the update branch, answers 200 with the update message, and sets
the stored quantity to the absent value (which the driver serializes as
null), clobbering the previously stored quantity; all other fields and
records are unchanged. -/
theorem updateQuantity_absent_clobbers (st : Store) (sid : String) (k : Nat) (it : Item)
    (hparse : parseObjectId sid = some k)
    (hfind : st.items.find? (fun j => j.id == k) = some it) :
    ∃ l1 l2,
      st.items = l1 ++ it :: l2 ∧
      updateQuantity st sid none =
        ⟨200, "Product quantity updated",
          ⟨st.nextId, l1 ++ {it with quantity := JVal.jnull} :: l2⟩⟩ := by
  obtain ⟨l1, l2, hsplit, hall⟩ := find?_decomp hfind
  have hx : (it.id == k) = true := by simpa using List.find?_some hfind
  have hany : st.items.any (fun j => j.id == k) = true :=
    List.any_eq_true.mpr ⟨it, List.mem_of_find?_eq_some hfind, hx⟩
  refine ⟨l1, l2, hsplit, ?_⟩
  have hlt : jsLtZero none = false := rfl
  have heq : jsEqZero none = false := rfl
  simp only [updateQuantity, hlt, heq, hparse, hany, qVal]
  rw [hsplit, updateFirst_decomp _ hall hx]
  simp

/-- Claim C10 witness: a body without quantity on the one-record store
overwrites the stored quantity "1L" with null and answers 200. -/
theorem updateQuantity_absent_clobbers_witness :
    ∃ l1 l2,
      oneItemStore.items = l1 ++ dupFirst :: l2 ∧
      updateQuantity oneItemStore "000000000000000000000001" none =
        ⟨200, "Product quantity updated",
          ⟨oneItemStore.nextId, l1 ++ {dupFirst with quantity := JVal.jnull} :: l2⟩⟩ :=
  updateQuantity_absent_clobbers oneItemStore "000000000000000000000001" 1 dupFirst
    (by decide) (by decide)

/-- Claim C9: a successful expiry update — the id resolves to a record and
the new non-empty date differs from the stored one — answers 200 and changes
only the expiryDate field of the matched record: its id, name, brands,
quantity and every optional field keep their prior values, and every other
record of the store is untouched. -/
theorem updateExpiry_frame (st : Store) (sid : String) (k : Nat) (e : String) (it : Item)
    (he : e ≠ "")
    (hparse : parseObjectId sid = some k)
    (hfind : st.items.find? (fun j => j.id == k) = some it)
    (hdiff : it.expiryDate ≠ some e) :
    ∃ l1 l2 it2,
      st.items = l1 ++ it :: l2 ∧
      updateExpiry st sid (some e) = (200, ⟨st.nextId, l1 ++ it2 :: l2⟩) ∧
      it2.expiryDate = some e ∧ it2.id = it.id ∧ it2.name = it.name ∧
      it2.brands = it.brands ∧ it2.quantity = it.quantity ∧
      it2.ingredients = it.ingredients ∧ it2.categories = it.categories ∧
      it2.imageUrl = it.imageUrl ∧ it2.url = it.url := by
  obtain ⟨l1, l2, hsplit, hall⟩ := find?_decomp hfind
  have hx : (it.id == k) = true := by simpa using List.find?_some hfind
  refine ⟨l1, l2, {it with expiryDate := some e}, hsplit, ?_,
    rfl, rfl, rfl, rfl, rfl, rfl, rfl, rfl, rfl⟩
  have hfalsy : jsFalsyStr (some e) = false := by
    show (e == "") = false
    cases hb : (e == "")
    · rfl
    · exact absurd (beq_iff_eq.mp hb) he
  have hbeq : (it.expiryDate == some e) = false := by
    cases hb : (it.expiryDate == some e)
    · rfl
    · exact absurd (by simpa using hb) hdiff
  simp only [updateExpiry, hfalsy, hparse, hfind, hbeq]
  rw [hsplit, updateFirst_decomp _ hall hx]
  simp

/-- Claim C9 witness: setting an expiry date on the one stored record (which
has none) changes exactly that field. -/
theorem updateExpiry_frame_witness :
    ∃ l1 l2 it2,
      oneItemStore.items = l1 ++ dupFirst :: l2 ∧
      updateExpiry oneItemStore "000000000000000000000001" (some "2025-01-01") =
        (200, ⟨oneItemStore.nextId, l1 ++ it2 :: l2⟩) ∧
      it2.expiryDate = some "2025-01-01" ∧ it2.id = dupFirst.id ∧
      it2.name = dupFirst.name ∧ it2.brands = dupFirst.brands ∧
      it2.quantity = dupFirst.quantity ∧ it2.ingredients = dupFirst.ingredients ∧
      it2.categories = dupFirst.categories ∧ it2.imageUrl = dupFirst.imageUrl ∧
      it2.url = dupFirst.url :=
  updateExpiry_frame oneItemStore "000000000000000000000001" 1 "2025-01-01" dupFirst
    (by decide) (by decide) (by decide) (by decide)

lemma beq_empty_false {s : String} (h : s ≠ "") : (s == "") = false := by
  cases hb : (s == "")
  · rfl
  · exact absurd (beq_iff_eq.mp hb) h

/-- Claim C8: a create request whose name, brands and quantity are non-empty
after trimming answers 201 (the `created` result); the stored record carries
the trimmed values, and the returned item is the persisted record fetched
back from the store by its assigned id — with ids below the store counter,
that re-read returns exactly the newly inserted record, not the input echoed
back. -/
theorem addFood_creates_trimmed (st : Store) (b : AddBody)
    (hn : trimField b.name ≠ "") (hb : trimField b.brands ≠ "")
    (hq : trimField b.quantity ≠ "")
    (hfresh : ∀ it ∈ st.items, it.id ≠ st.nextId) :
    ∃ (ni : Item) (st2 : Store),
      addFood st b = .created (some ni) st2 ∧
      ni.id = st.nextId ∧
      ni.name = trimField b.name ∧
      ni.brands = trimField b.brands ∧
      ni.quantity = JVal.jstr (trimField b.quantity) ∧
      st2.items.find? (fun it => it.id == st.nextId) = some ni ∧
      ni ∈ st2.items := by
  have hcond : (trimField b.name == "" || trimField b.brands == ""
      || trimField b.quantity == "") = false := by
    simp [beq_empty_false hn, beq_empty_false hb, beq_empty_false hq]
  refine ⟨⟨st.nextId, trimField b.name, trimField b.brands,
    JVal.jstr (trimField b.quantity), b.ingredients, b.categories,
    b.imageUrl, b.url, b.expiryDate⟩,
    ⟨st.nextId + 1, st.items ++ [⟨st.nextId, trimField b.name, trimField b.brands,
      JVal.jstr (trimField b.quantity), b.ingredients, b.categories,
      b.imageUrl, b.url, b.expiryDate⟩]⟩, ?_, rfl, rfl, rfl, rfl, ?_, ?_⟩
  · have hfnone : st.items.find? (fun it => it.id == st.nextId) = none := by
      apply List.find?_eq_none.mpr
      intro x hx
      simp [hfresh x hx]
    simp [addFood, hcond, List.find?_append, hfnone, List.find?]
  · have hfnone : st.items.find? (fun it => it.id == st.nextId) = none := by
      apply List.find?_eq_none.mpr
      intro x hx
      simp [hfresh x hx]
    rw [List.find?_append, hfnone, Option.none_or]
    simp [List.find?]
  · simp

/-- Claim C8 witness: creating name " Milk ", brands "Acme", quantity "1L" on
the empty store yields the trimmed persisted record, re-read by its new
id. -/
theorem addFood_creates_trimmed_witness :
    ∃ (ni : Item) (st2 : Store),
      addFood emptyStore ⟨some " Milk ", none, some "Acme", some "1L",
        none, none, none, none⟩ = .created (some ni) st2 ∧
      ni.id = emptyStore.nextId ∧
      ni.name = trimField (some " Milk ") ∧
      ni.brands = trimField (some "Acme") ∧
      ni.quantity = JVal.jstr (trimField (some "1L")) ∧
      st2.items.find? (fun it => it.id == emptyStore.nextId) = some ni ∧
      ni ∈ st2.items :=
  addFood_creates_trimmed emptyStore
    ⟨some " Milk ", none, some "Acme", some "1L", none, none, none, none⟩
    (by decide) (by decide) (by decide) (by decide)

end FoodInv
